import Mathlib

/-!
Verification development for `scripts/exgdas_global_marine_analysis_prep.py`
(GDASApp marine analysis preparation script).

The script is a linear orchestration: it resolves run parameters from process
environment variables, stages files, repairs netCDF attribute metadata in
background files by issuing `ncatted` shell commands, generates a YAML manifest
of background files (`gen_bkg_list`), and renders a set of configuration
documents from templates.

The embedding below models:
  * civil-calendar arithmetic (for `datetime + timedelta(hours=...)` and
    `strftime` as used by the script);
  * the Python string/path helpers the script calls (`os.path.basename`,
    `os.path.splitext`, `str.split`, lexicographic `list.sort`);
  * `gen_bkg_list`: the `ncatted` command trace (with an explicit exit-status
    oracle, since the script discards all exit statuses) and the manifest;
  * the bump-C configuration loop (`vars2d` / `vars3d` classification);
  * the sequence of environment-variable accesses and their failure modes
    (`runPrep`);
  * the template renderer `genYAML` (modelled from the spec, since
    `ufsda.yamltools` is outside the staged sources).
-/

/-! ## Civil calendar arithmetic

Python `datetime` values are modelled as a count of seconds since
1970-01-01T00:00:00 (proleptic Gregorian). `timedelta(hours=1)` is 3600
seconds. -/

/-- Days since 1970-01-01 of the civil date `y-m-d` (valid for dates from
1970 on, which is all the script handles). -/
def daysFromCivil (y m d : Nat) : Nat :=
  let yAdj := if m ≤ 2 then y - 1 else y
  let era := yAdj / 400
  let yoe := yAdj % 400
  let mp := if m ≤ 2 then m + 9 else m - 3
  let doy := (153 * mp + 2) / 5 + d - 1
  let doe := yoe * 365 + yoe / 4 - yoe / 100 + doy
  era * 146097 + doe - 719468

/-- Civil date `(y, m, d)` of a day count since 1970-01-01. -/
def civilFromDays (z : Nat) : Nat × Nat × Nat :=
  let z2 := z + 719468
  let era := z2 / 146097
  let doe := z2 % 146097
  let yoe := (doe - doe / 1460 + doe / 36524 - doe / 146096) / 365
  let y := yoe + era * 400
  let doy := doe - (365 * yoe + yoe / 4 - yoe / 100)
  let mp := (5 * doy + 2) / 153
  let d := doy - (153 * mp + 2) / 5 + 1
  let m := if mp < 10 then mp + 3 else mp - 9
  (if m ≤ 2 then y + 1 else y, m, d)

/-- Seconds since 1970-01-01T00:00:00 of a civil date-time. -/
def epochSecs (y m d h mi s : Nat) : Nat :=
  daysFromCivil y m d * 86400 + h * 3600 + mi * 60 + s

/-- Decimal digit character of `n % 10`. -/
def digitChar (n : Nat) : Char :=
  Char.ofNat (48 + n % 10)

/-- Two-digit zero-padded decimal rendering (for values below 100). -/
def pad2 (n : Nat) : List Char :=
  [digitChar (n / 10), digitChar n]

/-- Four-digit zero-padded decimal rendering (for values below 10000). -/
def pad4 (n : Nat) : List Char :=
  [digitChar (n / 1000), digitChar (n / 100), digitChar (n / 10), digitChar n]

/-- Python `strftime('%Y-%m-%dT%H:%M:%SZ')` on a seconds-since-epoch value, as used by
`gen_bkg_list` for the `date` field of each manifest record. -/
def strftDate (t : Nat) : String :=
  let c := civilFromDays (t / 86400)
  let secs := t % 86400
  String.mk (pad4 c.1 ++ ['-'] ++ pad2 c.2.1 ++ ['-'] ++ pad2 c.2.2 ++ ['T']
    ++ pad2 (secs / 3600) ++ [':'] ++ pad2 (secs % 3600 / 60) ++ [':']
    ++ pad2 (secs % 60) ++ ['Z'])

/-! ## Python string and path helpers -/

/-- Python string comparison: lexicographic on code points. -/
def lexLe : List Char → List Char → Bool
  | [], _ => true
  | _ :: _, [] => false
  | a :: as, b :: bs =>
      if a.toNat = b.toNat then lexLe as bs
      else decide (a.toNat < b.toNat)

/-- The order `list.sort()` uses on Python strings. -/
def strLe (a b : String) : Prop :=
  lexLe a.data b.data = true

instance : DecidableRel strLe := fun a b => by
  unfold strLe; infer_instance

/-- Python `os.path.basename`: the characters after the last `/`. -/
def basenameData (ds : List Char) : List Char :=
  ds.foldl (fun acc c => if c = '/' then [] else acc ++ [c]) []

/-- Index of the rightmost `.` in a character list, if any. -/
def lastDotIdx : List Char → Option Nat
  | [] => none
  | c :: rest =>
      match lastDotIdx rest with
      | some k => some (k + 1)
      | none => if c = '.' then some 0 else none

/-- Python `os.path.splitext(s)[0]`: everything before the last `.`, except that a
run of leading dots is never treated as an extension separator (so
`.bashrc` keeps its name). -/
def splitextStem (ds : List Char) : List Char :=
  match lastDotIdx ds with
  | some i => if (ds.take i).any (fun c => c != '.') then ds.take i else ds
  | none => ds

/-- The value `os.path.splitext(os.path.basename(bkg))[0] + '.nc'`, the manifest
`ocn_filename` computation of `gen_bkg_list`. -/
def ocnFilenameOf (bkg : String) : String :=
  String.mk (splitextStem (basenameData bkg.data)) ++ ".nc"

/-- Python `str.split(',')` (no merging of empty fields). -/
def splitComma : List Char → List (List Char)
  | [] => [[]]
  | c :: rest =>
      if c = ',' then [] :: splitComma rest
      else
        match splitComma rest with
        | [] => [[c]]
        | g :: gs => (c :: g) :: gs

/-- Python `list.sort()` on the glob results: lexicographic in-place sort. -/
def sortFiles (files : List String) : List String :=
  List.insertionSort strLe files

/-! ## `gen_bkg_list`: metadata repair trace and manifest -/

/-- The fixed variable list of the metadata-repair loop. -/
def fixDiagVars : List String :=
  ["Temp", "Salt", "ave_ssh", "h", "MLD"]

/-- The two attributes repaired per variable. -/
def fixDiagAtts : List String :=
  ["_FillValue", "missing_value"]

/-- The overwrite-to-sentinel command
`ncatted -h -a att,v,o,d,9999.0 bkg` built for each background file. -/
def ncattedChange (att v bkg : String) : String :=
  "ncatted -h -a " ++ att ++ "," ++ v ++ ",o,d,9999.0 " ++ bkg

/-- The attribute-delete command `ncatted -h -a att,v,d,d,1.0 bkg` built for
each background file. -/
def ncattedDelete (att v bkg : String) : String :=
  "ncatted -h -a " ++ att ++ "," ++ v ++ ",d,d,1.0 " ++ bkg

/-- One pass of the job-building loop: `fix_diag_ch_jobs` and
`fix_diag_d_jobs` are appended to, in file order, for a fixed variable and
attribute. -/
def buildFixDiagJobs (v att : String) (files : List String) :
    List String × List String :=
  files.foldl
    (fun p bkg => (p.1 ++ [ncattedChange att v bkg], p.2 ++ [ncattedDelete att v bkg]))
    ([], [])

/-- How a repair command is issued: logged via `logging.info`, executed via
`os.system`, executed again via `subprocess.run`. -/
inductive ExecMethod
  | log
  | osSystem
  | subprocessRun
deriving DecidableEq, Repr

/-- Per-command event sequence: the command is logged, then run with
`os.system`, then run again with `subprocess.run`. -/
def cmdEvents (c : String) : List (ExecMethod × String) :=
  [(ExecMethod.log, c), (ExecMethod.osSystem, c), (ExecMethod.subprocessRun, c)]

/-- The event trace of executing a list of jobs in order. -/
def runJobs (cs : List String) : List (ExecMethod × String) :=
  cs.flatMap cmdEvents

/-- The event trace for one (variable, attribute) combination: all change
jobs are issued, then all delete jobs. -/
def blockTrace (v att : String) (files : List String) :
    List (ExecMethod × String) :=
  runJobs (buildFixDiagJobs v att files).1 ++ runJobs (buildFixDiagJobs v att files).2

/-- The full metadata-repair event trace of `gen_bkg_list`. -/
def repairTrace (files : List String) : List (ExecMethod × String) :=
  fixDiagVars.flatMap (fun v => fixDiagAtts.flatMap (fun att => blockTrace v att files))

/-- One record of the background manifest (`bkg_dict` in the source). -/
structure BkgRec where
  date : String
  basename : String
  ocn_filename : String
  read_from_file : Nat
deriving DecidableEq, Repr

/-- The record built for one background file at an assigned timestamp. -/
def mkBkgRec (bkg_path : String) (date : Nat) (bkg : String) : BkgRec :=
  { date := strftDate date
    basename := bkg_path ++ "/"
    ocn_filename := ocnFilenameOf bkg
    read_from_file := 1 }

/-- The manifest-building loop: one record per file, with the running
timestamp advanced one hour per record. -/
def mkBkgRecs (bkg_path : String) (date : Nat) : List String → List BkgRec
  | [] => []
  | f :: fs => mkBkgRec bkg_path date f :: mkBkgRecs bkg_path (date + 3600) fs

/-- The `states` list of the manifest: the sorted files, timestamped starting
at `window_begin + 1 hour`. -/
def gen_bkg_states (window_begin : Nat) (bkg_path : String) (files : List String) :
    List BkgRec :=
  mkBkgRecs bkg_path (window_begin + 3600) (sortFiles files)

/-- The manifest document (`dict = {'states': bkg_list}`). -/
structure Manifest where
  states : List BkgRec
deriving DecidableEq, Repr

/-- The function `gen_bkg_list`, given the glob results and an oracle assigning an exit
status to each shell command: the repair trace with each event's exit
status, and the manifest written at the end. The script discards every
exit status, so the oracle's answers are carried in the trace but consumed
nowhere else. -/
def gen_bkg_list (oracle : String → Int) (window_begin : Nat) (bkg_path : String)
    (files : List String) :
    List ((ExecMethod × String) × Int) × Manifest :=
  ((repairTrace (sortFiles files)).map (fun e => (e, oracle e.2)),
    ⟨gen_bkg_states window_begin bkg_path files⟩)

/-! ## Order properties of the sort comparator -/

theorem lexLe_total : ∀ xs ys : List Char, lexLe xs ys = true ∨ lexLe ys xs = true := by
  intro xs
  induction xs with
  | nil => intro ys; left; rfl
  | cons a as ih =>
    intro ys
    cases ys with
    | nil => right; rfl
    | cons b bs =>
      by_cases hab : a.toNat = b.toNat
      · rcases ih bs with h | h
        · left; simp [lexLe, hab, h]
        · right; simp [lexLe, hab.symm, h]
      · rcases Nat.lt_or_ge a.toNat b.toNat with h | h
        · left; simp [lexLe, hab, h]
        · have hba : b.toNat < a.toNat :=
            Nat.lt_of_le_of_ne h (fun e => hab e.symm)
          have hne : b.toNat ≠ a.toNat := Nat.ne_of_lt hba
          right
          simp [lexLe, hne, hba]

theorem lexLe_trans : ∀ xs ys zs : List Char,
    lexLe xs ys = true → lexLe ys zs = true → lexLe xs zs = true := by
  intro xs
  induction xs with
  | nil => intro ys zs _ _; rfl
  | cons a as ih =>
    intro ys zs hxy hyz
    cases ys with
    | nil => simp [lexLe] at hxy
    | cons b bs =>
      cases zs with
      | nil => simp [lexLe] at hyz
      | cons c cs =>
        by_cases hab : a.toNat = b.toNat
        · by_cases hbc : b.toNat = c.toNat
          · have hac : a.toNat = c.toNat := hab.trans hbc
            simp [lexLe, hab] at hxy
            simp [lexLe, hbc] at hyz
            simp [lexLe, hac, ih bs cs hxy hyz]
          · simp [lexLe, hbc] at hyz
            have hac : a.toNat < c.toNat := hab ▸ hyz
            simp [lexLe, Nat.ne_of_lt hac, hac]
        · simp [lexLe, hab] at hxy
          by_cases hbc : b.toNat = c.toNat
          · have hac : a.toNat < c.toNat := hbc ▸ hxy
            simp [lexLe, Nat.ne_of_lt hac, hac]
          · simp [lexLe, hbc] at hyz
            have hac : a.toNat < c.toNat := Nat.lt_trans hxy hyz
            simp [lexLe, Nat.ne_of_lt hac, hac]

instance : IsTotal String strLe :=
  ⟨fun a b => lexLe_total a.data b.data⟩

instance : IsTrans String strLe :=
  ⟨fun a b c => lexLe_trans a.data b.data c.data⟩

theorem sortFiles_sorted (files : List String) : List.Sorted strLe (sortFiles files) :=
  List.sorted_insertionSort strLe files

theorem sortFiles_perm (files : List String) : (sortFiles files).Perm files :=
  List.perm_insertionSort strLe files

/-! ## Structural lemmas about the manifest builder -/

theorem length_mkBkgRecs (p : String) (d : Nat) (fs : List String) :
    (mkBkgRecs p d fs).length = fs.length := by
  induction fs generalizing d with
  | nil => rfl
  | cons f fs ih => simp [mkBkgRecs, ih]

theorem getD_mkBkgRecs (p : String) (r : BkgRec) (s : String) :
    ∀ (fs : List String) (d i : Nat), i < fs.length →
      (mkBkgRecs p d fs).getD i r = mkBkgRec p (d + 3600 * i) (fs.getD i s) := by
  intro fs
  induction fs with
  | nil => intro d i h; simp at h
  | cons f fs ih =>
    intro d i h
    cases i with
    | zero => simp [mkBkgRecs]
    | succ j =>
      have hj : j < fs.length := by simpa using h
      have := ih (d + 3600) j hj
      simp only [mkBkgRecs, List.getD_cons_succ]
      rw [this]
      have : d + 3600 + 3600 * j = d + 3600 * (j + 1) := by ring
      rw [this]

theorem length_gen_bkg_states (T : Nat) (p : String) (files : List String) :
    (gen_bkg_states T p files).length = files.length := by
  unfold gen_bkg_states
  rw [length_mkBkgRecs]
  exact (sortFiles_perm files).length_eq

theorem getD_gen_bkg_states (T : Nat) (p : String) (files : List String)
    (r : BkgRec) (s : String) (i : Nat) (h : i < files.length) :
    (gen_bkg_states T p files).getD i r
      = mkBkgRec p (T + 3600 * (i + 1)) ((sortFiles files).getD i s) := by
  unfold gen_bkg_states
  have hlen : i < (sortFiles files).length := by
    rw [(sortFiles_perm files).length_eq]; exact h
  rw [getD_mkBkgRecs p r s (sortFiles files) (T + 3600) i hlen]
  have : T + 3600 + 3600 * i = T + 3600 * (i + 1) := by ring
  rw [this]

/-! ## Structural lemmas about the repair-job builder -/

theorem buildFixDiagJobs_foldl (v att : String) :
    ∀ (files : List String) (a b : List String),
      files.foldl
        (fun p bkg => (p.1 ++ [ncattedChange att v bkg], p.2 ++ [ncattedDelete att v bkg]))
        (a, b)
      = (a ++ files.map (ncattedChange att v), b ++ files.map (ncattedDelete att v)) := by
  intro files
  induction files with
  | nil => intro a b; simp
  | cons f fs ih =>
    intro a b
    simp only [List.foldl_cons, List.map_cons]
    rw [ih]
    simp

theorem buildFixDiagJobs_eq (v att : String) (files : List String) :
    buildFixDiagJobs v att files
      = (files.map (ncattedChange att v), files.map (ncattedDelete att v)) := by
  unfold buildFixDiagJobs
  rw [buildFixDiagJobs_foldl]
  simp

/-! ## Structural lemmas about the execution trace -/

theorem runJobs_cons (c : String) (cs : List String) :
    runJobs (c :: cs) = cmdEvents c ++ runJobs cs := by
  simp [runJobs]

theorem mem_runJobs_osSystem {c : String} {cs : List String} (h : c ∈ cs) :
    (ExecMethod.osSystem, c) ∈ runJobs cs :=
  List.mem_flatMap.mpr ⟨c, h, by simp [cmdEvents]⟩

theorem mem_runJobs_subprocessRun {c : String} {cs : List String} (h : c ∈ cs) :
    (ExecMethod.subprocessRun, c) ∈ runJobs cs :=
  List.mem_flatMap.mpr ⟨c, h, by simp [cmdEvents]⟩

theorem mem_runJobs_log {c : String} {cs : List String} (h : c ∈ cs) :
    (ExecMethod.log, c) ∈ runJobs cs :=
  List.mem_flatMap.mpr ⟨c, h, by simp [cmdEvents]⟩

theorem runJobs_logged {m : ExecMethod} {c : String} {cs : List String}
    (h : (m, c) ∈ runJobs cs) : (ExecMethod.log, c) ∈ runJobs cs := by
  rcases List.mem_flatMap.mp h with ⟨c', hc', hm⟩
  have hcc : c = c' := by
    simp [cmdEvents, Prod.ext_iff] at hm
    rcases hm with ⟨_, h⟩ | ⟨_, h⟩ | ⟨_, h⟩ <;> exact h
  subst hcc
  exact mem_runJobs_log hc'

theorem runJobs_exec_length (cs : List String) :
    ((runJobs cs).filter (fun e => decide (e.1 ≠ ExecMethod.log))).length
      = 2 * cs.length := by
  induction cs with
  | nil => rfl
  | cons c cs ih =>
    rw [runJobs_cons, List.filter_append, List.length_append, ih]
    simp [cmdEvents, List.filter]
    omega

theorem buildFixDiagJobs_fst (v att : String) (files : List String) :
    (buildFixDiagJobs v att files).1 = files.map (ncattedChange att v) := by
  rw [buildFixDiagJobs_eq]

theorem buildFixDiagJobs_snd (v att : String) (files : List String) :
    (buildFixDiagJobs v att files).2 = files.map (ncattedDelete att v) := by
  rw [buildFixDiagJobs_eq]

theorem blockTrace_eq (v att : String) (files : List String) :
    blockTrace v att files
      = runJobs (files.map (ncattedChange att v)) ++ runJobs (files.map (ncattedDelete att v)) := by
  unfold blockTrace
  rw [buildFixDiagJobs_fst, buildFixDiagJobs_snd]

theorem blockTrace_exec_length (v att : String) (files : List String) :
    ((blockTrace v att files).filter (fun e => decide (e.1 ≠ ExecMethod.log))).length
      = 4 * files.length := by
  rw [blockTrace_eq, List.filter_append, List.length_append,
    runJobs_exec_length, runJobs_exec_length, List.length_map, List.length_map]
  omega

theorem blockTrace_logged {m : ExecMethod} {c v att : String} {files : List String}
    (h : (m, c) ∈ blockTrace v att files) : (ExecMethod.log, c) ∈ blockTrace v att files := by
  unfold blockTrace at *
  rcases List.mem_append.mp h with h' | h'
  · exact List.mem_append_left _ (runJobs_logged h')
  · exact List.mem_append_right _ (runJobs_logged h')

theorem mem_repairTrace_of_block {v att : String} {files : List String}
    {e : ExecMethod × String}
    (hv : v ∈ fixDiagVars) (ha : att ∈ fixDiagAtts) (he : e ∈ blockTrace v att files) :
    e ∈ repairTrace files :=
  List.mem_flatMap.mpr ⟨v, hv, List.mem_flatMap.mpr ⟨att, ha, he⟩⟩

theorem repairTrace_logged {m : ExecMethod} {c : String} {files : List String}
    (h : (m, c) ∈ repairTrace files) : (ExecMethod.log, c) ∈ repairTrace files := by
  rcases List.mem_flatMap.mp h with ⟨v, hv, h2⟩
  rcases List.mem_flatMap.mp h2 with ⟨att, ha, h3⟩
  exact mem_repairTrace_of_block hv ha (blockTrace_logged h3)

theorem repairTrace_exec_length (files : List String) :
    ((repairTrace files).filter (fun e => decide (e.1 ≠ ExecMethod.log))).length
      = 40 * files.length := by
  unfold repairTrace fixDiagVars fixDiagAtts
  simp only [List.flatMap_cons, List.flatMap_nil, List.append_nil, List.filter_append,
    List.length_append, blockTrace_exec_length]
  omega

/-! ## Lemmas about `os.path.basename` and `os.path.splitext` -/

theorem basenameData_foldl_no_slash :
    ∀ (ds acc : List Char), (∀ c ∈ ds, c ≠ '/') →
      ds.foldl (fun acc c => if c = '/' then [] else acc ++ [c]) acc = acc ++ ds := by
  intro ds
  induction ds with
  | nil => intro acc _; simp
  | cons c cs ih =>
    intro acc h
    have hc : c ≠ '/' := h c (List.mem_cons_self c cs)
    simp only [List.foldl_cons, if_neg hc]
    rw [ih (acc ++ [c]) (fun x hx => h x (List.mem_cons_of_mem c hx))]
    simp

theorem basenameData_no_slash {ds : List Char} (h : ∀ c ∈ ds, c ≠ '/') :
    basenameData ds = ds := by
  unfold basenameData
  rw [basenameData_foldl_no_slash ds [] h]
  simp

theorem basenameData_append_slash (xs ys : List Char) :
    basenameData (xs ++ '/' :: ys) = basenameData ys := by
  unfold basenameData
  rw [List.foldl_append]
  simp

theorem lastDotIdx_none {e : List Char} (h : ∀ c ∈ e, c ≠ '.') :
    lastDotIdx e = none := by
  induction e with
  | nil => rfl
  | cons c cs ih =>
    have hc : c ≠ '.' := h c (List.mem_cons_self c cs)
    rw [lastDotIdx, ih (fun x hx => h x (List.mem_cons_of_mem c hx))]
    simp [hc]

theorem lastDotIdx_append_dot (b e : List Char) (h : ∀ c ∈ e, c ≠ '.') :
    lastDotIdx (b ++ '.' :: e) = some b.length := by
  induction b with
  | nil => simp [lastDotIdx, lastDotIdx_none h]
  | cons c cs ih => simp [lastDotIdx, ih]

theorem splitextStem_append_dot {b e : List Char}
    (hb : b.any (fun c => c != '.') = true) (he : ∀ c ∈ e, c ≠ '.') :
    splitextStem (b ++ '.' :: e) = b := by
  unfold splitextStem
  rw [lastDotIdx_append_dot b e he]
  have htake : (b ++ '.' :: e).take b.length = b := by
    rw [List.take_append_of_le_length (Nat.le_refl _)]
    simp
  simp only [htake, if_pos hb]

/-! ## Bump-C configuration loop -/

/-- The fixed 3-D variable list (`vars3d` in the source). -/
def vars3d : List String :=
  ["tocn", "socn", "uocn", "vocn", "chl", "biop"]

/-- The fixed 2-D variable list (`vars2d` in the source). -/
def vars2d : List String :=
  ["ssh", "cicen", "hicen", "hsnon", "swh", "sw", "lw", "lw_rad", "lhf", "shf", "us"]

/-- The dimension tag chosen by the loop body: `'2d' if v in vars2d else '3d'`. -/
def dimOf (v : String) : String :=
  if v ∈ vars2d then "2d" else "3d"

/-- The generated bump-C YAML path `anl_dir + '/soca_bump' + dim + '_C_' + v + '.yaml'`. -/
def bumpCYamlPath (anl_dir v : String) : String :=
  anl_dir ++ "/soca_bump" ++ dimOf v ++ "_C_" ++ v ++ ".yaml"

/-- The per-variable data directory `'bump' + dim + '_' + v`. -/
def bumpdirName (v : String) : String :=
  "bump" ++ dimOf v ++ "_" ++ v

/-- The hard-coded loop variable list (`vars = ['ssh', 'tocn', 'socn']`). -/
def bumpLoopVars : List String :=
  ["ssh", "tocn", "socn"]

/-- The (variable, yaml path, bump directory) triples generated by the bump-C
loop. `soca_vars` (the `SOCA_VARS` environment value, split on commas) is in
scope in the source at this point but the loop over-writes it with the
hard-coded `vars` list, so it is a parameter here that the body never reads. -/
def bumpCOutputs (anl_dir : String) (soca_vars : List String) :
    List (String × String × String) :=
  bumpLoopVars.map (fun v => (v, bumpCYamlPath anl_dir v, bumpdirName v))

/-! ## Template renderer (modelled from the spec) -/

/-- Opening brace character, written via its code point. -/
def openBraceChar : Char := Char.ofNat 123

/-- Closing brace character, written via its code point. -/
def closeBraceChar : Char := Char.ofNat 125

/-- Lookup of a key in the overlay mapping. -/
def overlayLookup (overlay : List (String × String)) (k : String) : Option String :=
  match overlay.find? (fun p => p.1 == k) with
  | some p => some p.2
  | none => none

/-- Modelled from the spec: the substitution core of `ufsda.yamltools.genYAML`
(the templating utility is outside the staged sources). A template references
values as dollar-brace-NAME; each reference is resolved from the overlay
mapping first and the ambient environment second, and an unresolvable
reference is an unrecovered failure, per the spec's error conditions for the
configuration document generator. Recursion is fuelled by the template
length. -/
def substTemplate (overlay : List (String × String)) (env : String → Option String) :
    Nat → List Char → Except String (List Char)
  | 0, _ => Except.error "out of fuel"
  | _, [] => Except.ok []
  | fuel + 1, c :: rest =>
      if c = '$' then
        match rest with
        | [] => Except.ok [c]
        | b :: rest2 =>
          if b = openBraceChar then
            let name := String.mk (rest2.takeWhile (fun x => x != closeBraceChar))
            let remainder := (rest2.dropWhile (fun x => x != closeBraceChar)).drop 1
            match overlayLookup overlay name with
            | some v => (substTemplate overlay env fuel remainder).map (fun t => v.data ++ t)
            | none =>
              match env name with
              | some v => (substTemplate overlay env fuel remainder).map (fun t => v.data ++ t)
              | none => Except.error ("unset reference " ++ name)
          else
            (substTemplate overlay env fuel rest2).map (fun t => c :: b :: t)
      else
        (substTemplate overlay env fuel rest).map (fun t => c :: t)

/-- Modelled from the spec: `ufsda.yamltools.genYAML` — given a template, an
overlay mapping of override key/value pairs, and the ambient environment,
produce the fully materialized configuration document. -/
def genYAML (template : String) (overlay : List (String × String))
    (env : String → Option String) : Except String String :=
  (substTemplate overlay env (template.data.length + 1) template.data).map String.mk

/-! ## Environment resolution (`runPrep`) -/

/-- Decimal-digit test. -/
def isDigitChar (c : Char) : Bool :=
  decide (48 ≤ c.toNat) && decide (c.toNat ≤ 57)

/-- Value of a decimal digit string (most significant first). -/
def digitsToNat : List Char → Nat → Nat
  | [], acc => acc
  | c :: cs, acc => digitsToNat cs (acc * 10 + (c.toNat - 48))

/-- Python `int(s)` on the non-negative decimal strings the script feeds it. -/
def parsePyInt (s : String) : Option Nat :=
  if s.data ≠ [] ∧ s.data.all isDigitChar then some (digitsToNat s.data 0) else none

/-- Days in a month, with Gregorian leap years. -/
def daysInMonth (y m : Nat) : Nat :=
  if m = 2 then (if (y % 4 = 0 ∧ y % 100 ≠ 0) ∨ y % 400 = 0 then 29 else 28)
  else if m = 4 ∨ m = 6 ∨ m = 9 ∨ m = 11 then 30 else 31

/-- Python `datetime.strptime(CDATE, '%Y%m%d%H')`, as seconds since epoch: ten
decimal digits with the field ranges `datetime` enforces (years are modelled
from 1970 on, matching the epoch representation). -/
def parseCDATE (s : String) : Option Nat :=
  let ds := s.data
  if ds.length = 10 ∧ ds.all isDigitChar then
    let y := digitsToNat (ds.take 4) 0
    let m := digitsToNat ((ds.drop 4).take 2) 0
    let d := digitsToNat ((ds.drop 6).take 2) 0
    let h := digitsToNat ((ds.drop 8).take 2) 0
    if 1970 ≤ y ∧ 1 ≤ m ∧ m ≤ 12 ∧ 1 ≤ d ∧ d ≤ daysInMonth y m ∧ h ≤ 23 then
      some (epochSecs y m d h 0 0)
    else none
  else none

/-- Process environment lookup (`os.getenv` / `os.environ.get`). -/
def lookupEnv (env : List (String × String)) (k : String) : Option String :=
  match env.find? (fun p => p.1 == k) with
  | some p => some p.2
  | none => none

/-- Failure modes of the preparation script. -/
inductive PrepErr
  | missingEnv (name : String)
  | badInt (s : String)
  | badDate (s : String)
deriving DecidableEq, Repr

/-- True on `Except.error`. -/
def isErr {ε α : Type} : Except ε α → Bool
  | Except.error _ => true
  | Except.ok _ => false

/-- The required environment variables of the script: cycle root output path,
observation input path, static-fix-file directory, forecast-background path,
DA variable list, assimilation-window length, cycle date/hour (`CDATE`,
`PDY`, `cyc`), inner-iteration count, ocean-model stack size. -/
def requiredEnvVars : List String :=
  ["COMOUT", "COMIN_OBS", "SOCA_INPUT_FIX_DIR", "COMIN_GES", "SOCA_VARS",
   "assim_freq", "CDATE", "PDY", "cyc", "SOCA_NINNER", "DOMAIN_STACK_SIZE"]

/-- The script's top-level sequence of environment-variable accesses, in
source order, with the failure each unset variable causes. `fs` is the
filesystem's answer to the `glob` call. In-script failures: `COMOUT` feeds
`os.path.join(None, ...)` (TypeError), `COMIN_GES` feeds a string
concatenation in `gen_bkg_list`, `SOCA_VARS` is `.split(',')` on `None`
(AttributeError), `assim_freq` and `DOMAIN_STACK_SIZE` feed `int(None)`,
`CDATE` feeds `strptime(None, ...)`, `PDY`/`cyc` feed `None + None`.
Modelled from the spec (the `ufsda` utility package is outside the staged
sources): `ufsda.r2d2.setup` requires the observation input path
`COMIN_OBS`, `ufsda.stage.soca_fix` requires the static-fix-file directory
`SOCA_INPUT_FIX_DIR`, and `ufsda.yamltools.genYAML` fails on the unset
inner-iteration count `SOCA_NINNER` it is given — per the spec, all are
required and absence of any causes an unrecovered failure. -/
def runPrep (env : List (String × String)) (fs : String → List String) :
    Except PrepErr (List BkgRec) :=
  match lookupEnv env "COMOUT" with
  | none => Except.error (PrepErr.missingEnv "COMOUT")
  | some _comout =>
  match lookupEnv env "COMIN_OBS" with
  | none => Except.error (PrepErr.missingEnv "COMIN_OBS")
  | some _cominObs =>
  match lookupEnv env "SOCA_INPUT_FIX_DIR" with
  | none => Except.error (PrepErr.missingEnv "SOCA_INPUT_FIX_DIR")
  | some _fixDir =>
  match lookupEnv env "COMIN_GES" with
  | none => Except.error (PrepErr.missingEnv "COMIN_GES")
  | some cominGes =>
  match lookupEnv env "SOCA_VARS" with
  | none => Except.error (PrepErr.missingEnv "SOCA_VARS")
  | some socaVarsStr =>
  let _socaVars := (splitComma socaVarsStr.data).map String.mk
  match lookupEnv env "assim_freq" with
  | none => Except.error (PrepErr.missingEnv "assim_freq")
  | some assimStr =>
  match parsePyInt assimStr with
  | none => Except.error (PrepErr.badInt assimStr)
  | some assimFreq =>
  match lookupEnv env "CDATE" with
  | none => Except.error (PrepErr.missingEnv "CDATE")
  | some cdate =>
  match parseCDATE cdate with
  | none => Except.error (PrepErr.badDate cdate)
  | some cdateSecs =>
  let windowBegin := cdateSecs - assimFreq * 1800
  let states := gen_bkg_states windowBegin cominGes (fs (cominGes ++ "/*gdas.t*.ocnf00[4-9]*"))
  match lookupEnv env "PDY" with
  | none => Except.error (PrepErr.missingEnv "PDY")
  | some _pdy =>
  match lookupEnv env "cyc" with
  | none => Except.error (PrepErr.missingEnv "cyc")
  | some _cyc =>
  match lookupEnv env "SOCA_NINNER" with
  | none => Except.error (PrepErr.missingEnv "SOCA_NINNER")
  | some _ninner =>
  match lookupEnv env "DOMAIN_STACK_SIZE" with
  | none => Except.error (PrepErr.missingEnv "DOMAIN_STACK_SIZE")
  | some dss =>
  match parsePyInt dss with
  | none => Except.error (PrepErr.badInt dss)
  | some _ => Except.ok states

/-! ## `runPrep` only succeeds with a fully-populated environment -/

theorem runPrep_ok_env (env : List (String × String)) (fs : String → List String)
    (h : isErr (runPrep env fs) = false) :
    ∀ v ∈ requiredEnvVars, (lookupEnv env v).isSome := by
  unfold runPrep at h
  cases h1 : lookupEnv env "COMOUT"
  · rw [h1] at h; simp [isErr] at h
  · rw [h1] at h
    cases h2 : lookupEnv env "COMIN_OBS"
    · rw [h2] at h; simp [isErr] at h
    · rw [h2] at h
      cases h3 : lookupEnv env "SOCA_INPUT_FIX_DIR"
      · rw [h3] at h; simp [isErr] at h
      · rw [h3] at h
        cases h4 : lookupEnv env "COMIN_GES"
        · rw [h4] at h; simp [isErr] at h
        · rw [h4] at h
          cases h5 : lookupEnv env "SOCA_VARS"
          · rw [h5] at h; simp [isErr] at h
          · rw [h5] at h
            cases h6 : lookupEnv env "assim_freq"
            · rw [h6] at h; simp [isErr] at h
            · rw [h6] at h
              rename_i assimStr
              dsimp only at h
              cases h6b : parsePyInt assimStr
              · rw [h6b] at h; simp [isErr] at h
              · rw [h6b] at h
                cases h7 : lookupEnv env "CDATE"
                · rw [h7] at h; simp [isErr] at h
                · rw [h7] at h
                  rename_i cdateStr
                  dsimp only at h
                  cases h7b : parseCDATE cdateStr
                  · rw [h7b] at h; simp [isErr] at h
                  · rw [h7b] at h
                    cases h8 : lookupEnv env "PDY"
                    · rw [h8] at h; simp [isErr] at h
                    · rw [h8] at h
                      cases h9 : lookupEnv env "cyc"
                      · rw [h9] at h; simp [isErr] at h
                      · rw [h9] at h
                        cases h10 : lookupEnv env "SOCA_NINNER"
                        · rw [h10] at h; simp [isErr] at h
                        · rw [h10] at h
                          cases h11 : lookupEnv env "DOMAIN_STACK_SIZE"
                          · rw [h11] at h; simp [isErr] at h
                          · intro v hv
                            simp only [requiredEnvVars, List.mem_cons, List.not_mem_nil,
                              or_false] at hv
                            rcases hv with rfl | rfl | rfl | rfl | rfl | rfl | rfl | rfl
                              | rfl | rfl | rfl <;>
                              simp [h1, h2, h3, h4, h5, h6, h7, h8, h9, h10, h11]

/-! ## Remaining helper lemmas -/

theorem mem_mkBkgRecs {p : String} {r : BkgRec} :
    ∀ {fs : List String} {d : Nat}, r ∈ mkBkgRecs p d fs →
      ∃ f ∈ fs, ∃ d2, r = mkBkgRec p d2 f := by
  intro fs
  induction fs with
  | nil => intro d h; simp [mkBkgRecs] at h
  | cons f fs ih =>
    intro d h
    simp only [mkBkgRecs, List.mem_cons] at h
    rcases h with h | h
    · exact ⟨f, List.mem_cons_self f fs, d, h⟩
    · rcases ih h with ⟨g, hg, d2, he⟩
      exact ⟨g, List.mem_cons_of_mem f hg, d2, he⟩

/-! ## Claims -/

/-- C1: for every window-start timestamp `T` and every list of glob-matched
background files, the manifest is built over the lexicographically sorted
permutation of the files, and its `i`-th record is the record of the `i`-th
sorted file carrying the timestamp `T + (i+1)` hours — so the records get
`T+1h, T+2h, ..., T+Nh` in sorted-filename order, strictly increasing. -/
theorem gen_bkg_list_sorted_hourly (T : Nat) (p : String) (files : List String)
    (i : Nat) (h : i < files.length) :
    List.Sorted strLe (sortFiles files) ∧ (sortFiles files).Perm files ∧
    (gen_bkg_states T p files).length = files.length ∧
    (gen_bkg_states T p files).getD i ⟨"", "", "", 0⟩
      = mkBkgRec p (T + 3600 * (i + 1)) ((sortFiles files).getD i "") ∧
    ((gen_bkg_states T p files).getD i ⟨"", "", "", 0⟩).date
      = strftDate (T + 3600 * (i + 1)) ∧
    T + 3600 * (i + 1) < T + 3600 * (i + 2) := by
  refine ⟨sortFiles_sorted files, sortFiles_perm files,
    length_gen_bkg_states T p files, ?_, ?_, by omega⟩
  · exact getD_gen_bkg_states T p files ⟨"", "", "", 0⟩ "" i h
  · rw [getD_gen_bkg_states T p files ⟨"", "", "", 0⟩ "" i h]
    rfl

/-- Witness for C1 at a concrete input. -/
theorem gen_bkg_list_sorted_hourly_witness :
    1 < (["b.nc", "a.nc"] : List String).length ∧
    List.Sorted strLe (sortFiles ["b.nc", "a.nc"]) ∧
    (gen_bkg_states 0 "/ges" ["b.nc", "a.nc"]).getD 1 ⟨"", "", "", 0⟩
      = mkBkgRec "/ges" (0 + 3600 * (1 + 1)) ((sortFiles ["b.nc", "a.nc"]).getD 1 "") :=
  ⟨by decide,
    (gen_bkg_list_sorted_hourly 0 "/ges" ["b.nc", "a.nc"] 1 (by decide)).1,
    (gen_bkg_list_sorted_hourly 0 "/ges" ["b.nc", "a.nc"] 1 (by decide)).2.2.2.1⟩

/-- C2: for every variable in the fixed repair list and each attribute, the
metadata repair issues the overwrite-to-sentinel (9999.0) command for every
matched file and only afterwards the delete command for every matched file
(change jobs first, then delete jobs, both in file order); every traced
command execution has a log event for that command in the trace; and the
manifest `gen_bkg_list` produces is identical under any two exit-status
assignments — no exit status is inspected and the manifest-building step is
always reached. -/
theorem fix_diag_repair_contract (v att : String) (files : List String)
    (o1 o2 : String → Int) (T : Nat) (p : String)
    (hv : v ∈ fixDiagVars) (ha : att ∈ fixDiagAtts) :
    (buildFixDiagJobs v att files).1 ++ (buildFixDiagJobs v att files).2
      = files.map (ncattedChange att v) ++ files.map (ncattedDelete att v) ∧
    blockTrace v att files
      = runJobs (files.map (ncattedChange att v))
        ++ runJobs (files.map (ncattedDelete att v)) ∧
    (∀ m c, (m, c) ∈ repairTrace files → (ExecMethod.log, c) ∈ repairTrace files) ∧
    (gen_bkg_list o1 T p files).2 = (gen_bkg_list o2 T p files).2 := by
  refine ⟨?_, blockTrace_eq v att files, ?_, rfl⟩
  · rw [buildFixDiagJobs_fst, buildFixDiagJobs_snd]
  · intro m c hm
    exact repairTrace_logged hm

/-- Witness for C2 at a concrete input. -/
theorem fix_diag_repair_contract_witness :
    "Temp" ∈ fixDiagVars ∧ "_FillValue" ∈ fixDiagAtts ∧
    (gen_bkg_list (fun _ => 0) 0 "." ["a.nc"]).2
      = (gen_bkg_list (fun _ => 1) 0 "." ["a.nc"]).2 :=
  ⟨by decide, by decide,
    (fix_diag_repair_contract "Temp" "_FillValue" ["a.nc"] (fun _ => 0) (fun _ => 1)
      0 "." (by decide) (by decide)).2.2.2⟩

/-- C3: if any required environment variable (cycle root output path
`COMOUT`, observation input path `COMIN_OBS`, static-fix-file directory
`SOCA_INPUT_FIX_DIR`, forecast-background path `COMIN_GES`, cycle date/hour
`CDATE`/`PDY`/`cyc`, assimilation-window length `assim_freq`, DA variable
list `SOCA_VARS`, inner-iteration count `SOCA_NINNER`, ocean-model stack
size `DOMAIN_STACK_SIZE`) is unset in the environment, the script
terminates with an unrecovered failure. -/
theorem required_env_missing_fails (env : List (String × String))
    (fs : String → List String) (v : String)
    (hv : v ∈ requiredEnvVars) (hnone : lookupEnv env v = none) :
    isErr (runPrep env fs) = true := by
  cases hb : isErr (runPrep env fs) with
  | true => rfl
  | false =>
    have hsome := runPrep_ok_env env fs hb v hv
    rw [hnone] at hsome
    simp at hsome

/-- Witness for C3 at a concrete input. -/
theorem required_env_missing_fails_witness :
    "CDATE" ∈ requiredEnvVars ∧
    lookupEnv [("COMOUT", "/out"), ("COMIN_OBS", "/obs")] "CDATE" = none ∧
    isErr (runPrep [("COMOUT", "/out"), ("COMIN_OBS", "/obs")] (fun _ => [])) = true :=
  ⟨by decide, by decide,
    required_env_missing_fails [("COMOUT", "/out"), ("COMIN_OBS", "/obs")]
      (fun _ => []) "CDATE" (by decide) (by decide)⟩

/-- C4: every manifest record's `ocn_filename` is the matched file's base
name with its extension replaced by `.nc`: the record built for file `f`
carries `splitext(basename(f))[0] + '.nc'`, and for a path `dir/b.e` with
slash-free stem `b` (containing a non-dot character) and slash- and
dot-free extension `e`, the result is `b ++ ".nc"` regardless of what `e`
was. -/
theorem ocn_filename_replaces_extension
    (T : Nat) (p : String) (files : List String) (r : BkgRec)
    (hr : r ∈ gen_bkg_states T p files)
    (dir b e : String)
    (hb1 : b.data.any (fun c => c != '.') = true)
    (hb2 : ∀ c ∈ b.data, c ≠ '/')
    (he1 : ∀ c ∈ e.data, c ≠ '.')
    (he2 : ∀ c ∈ e.data, c ≠ '/') :
    (∃ f ∈ files, r.ocn_filename = ocnFilenameOf f) ∧
    ocnFilenameOf (dir ++ "/" ++ b ++ "." ++ e) = b ++ ".nc" := by
  constructor
  · rcases mem_mkBkgRecs
        (show r ∈ mkBkgRecs p (T + 3600) (sortFiles files) from hr) with ⟨f, hf, d2, rfl⟩
    exact ⟨f, (sortFiles_perm files).mem_iff.mp hf, rfl⟩
  · unfold ocnFilenameOf
    have hdata : (dir ++ "/" ++ b ++ "." ++ e).data
        = dir.data ++ '/' :: (b.data ++ '.' :: e.data) := by
      simp [String.data_append]
    rw [hdata, basenameData_append_slash]
    have hns : ∀ c ∈ b.data ++ '.' :: e.data, c ≠ '/' := by
      intro c hc
      rcases List.mem_append.mp hc with hc | hc
      · exact hb2 c hc
      · rcases List.mem_cons.mp hc with rfl | hc
        · decide
        · exact he2 c hc
    rw [basenameData_no_slash hns, splitextStem_append_dot hb1 he1]

/-- Witness for C4 at a concrete input. -/
theorem ocn_filename_replaces_extension_witness :
    (⟨"1970-01-01T01:00:00Z", "./", "x.nc", 1⟩ : BkgRec) ∈ gen_bkg_states 0 "." ["x.foo"] ∧
    (∃ f ∈ ["x.foo"],
      (⟨"1970-01-01T01:00:00Z", "./", "x.nc", 1⟩ : BkgRec).ocn_filename = ocnFilenameOf f) ∧
    ocnFilenameOf ("d" ++ "/" ++ "x" ++ "." ++ "foo") = "x" ++ ".nc" :=
  ⟨by decide,
    (ocn_filename_replaces_extension 0 "." ["x.foo"] ⟨"1970-01-01T01:00:00Z", "./", "x.nc", 1⟩
      (by decide) "d" "x" "foo" (by decide) (by decide) (by decide) (by decide)).1,
    (ocn_filename_replaces_extension 0 "." ["x.foo"] ⟨"1970-01-01T01:00:00Z", "./", "x.nc", 1⟩
      (by decide) "d" "x" "foo" (by decide) (by decide) (by decide) (by decide)).2⟩

/-- C5: in the bump-C loop body, a variable in the fixed 2-D list yields the
tag `2d` in both the generated YAML path and the data directory name, and
any other name — whether in `vars3d` or in neither fixed list — yields
`3d`. -/
theorem bumpC_dim_classification (anl v : String) :
    (v ∈ vars2d → dimOf v = "2d"
      ∧ bumpCYamlPath anl v = anl ++ "/soca_bump2d_C_" ++ v ++ ".yaml"
      ∧ bumpdirName v = "bump2d_" ++ v) ∧
    (v ∉ vars2d → dimOf v = "3d"
      ∧ bumpCYamlPath anl v = anl ++ "/soca_bump3d_C_" ++ v ++ ".yaml"
      ∧ bumpdirName v = "bump3d_" ++ v) := by
  constructor
  · intro hv
    have hd : dimOf v = "2d" := by unfold dimOf; rw [if_pos hv]
    refine ⟨hd, ?_, ?_⟩
    · unfold bumpCYamlPath; rw [hd]; apply String.ext; simp [String.data_append]
    · unfold bumpdirName; rw [hd]; apply String.ext; simp [String.data_append]
  · intro hv
    have hd : dimOf v = "3d" := by unfold dimOf; rw [if_neg hv]
    refine ⟨hd, ?_, ?_⟩
    · unfold bumpCYamlPath; rw [hd]; apply String.ext; simp [String.data_append]
    · unfold bumpdirName; rw [hd]; apply String.ext; simp [String.data_append]

/-- Witness for C5 at concrete inputs. -/
theorem bumpC_dim_classification_witness :
    "ssh" ∈ vars2d ∧ dimOf "ssh" = "2d" ∧
    "tocn" ∉ vars2d ∧ dimOf "tocn" = "3d" :=
  ⟨by decide, ((bumpC_dim_classification "a" "ssh").1 (by decide)).1,
    by decide, ((bumpC_dim_classification "a" "tocn").2 (by decide)).1⟩

/-- C6: with no matched background files, `gen_bkg_list` raises no error and
the manifest document's `states` key holds the empty sequence. -/
theorem empty_glob_empty_states (o : String → Int) (T : Nat) (p : String) :
    (gen_bkg_list o T p []).2.states = [] ∧ gen_bkg_states T p [] = [] :=
  ⟨rfl, rfl⟩

/-- C7: configuration-document generation is deterministic — two invocations
of `genYAML` with identical template, overlay mapping, and (pointwise
equal) environment produce identical output documents. -/
theorem genYAML_deterministic (t : String) (overlay : List (String × String))
    (e1 e2 : String → Option String) (h : ∀ k, e1 k = e2 k) :
    genYAML t overlay e1 = genYAML t overlay e2 := by
  have he : e1 = e2 := funext h
  rw [he]

/-- Witness for C7: two syntactically different but pointwise equal
environments. -/
theorem genYAML_deterministic_witness :
    genYAML "a" [("A", "x")] (fun k => if k = "B" then some "y" else none)
      = genYAML "a" [("A", "x")] (fun k => if "B" = k then some "y" else none) :=
  genYAML_deterministic "a" [("A", "x")] _ _ (by
    intro k
    by_cases hk : k = "B"
    · subst hk; simp
    · simp [hk, Ne.symm hk])

/-- C8: with window start 2022-03-28T00:00:00Z and exactly the three matched
files `gdas.t00z.ocnf004.nc`, `...005.nc`, `...006.nc`, the manifest has
exactly three records dated 01:00Z, 02:00Z, 03:00Z in that order; and every
record of every generated manifest has `read_from_file = 1`. -/
theorem bkg_scenario_20220328 :
    gen_bkg_states (epochSecs 2022 3 28 0 0 0) "."
        ["gdas.t00z.ocnf004.nc", "gdas.t00z.ocnf005.nc", "gdas.t00z.ocnf006.nc"]
      = [⟨"2022-03-28T01:00:00Z", "./", "gdas.t00z.ocnf004.nc", 1⟩,
         ⟨"2022-03-28T02:00:00Z", "./", "gdas.t00z.ocnf005.nc", 1⟩,
         ⟨"2022-03-28T03:00:00Z", "./", "gdas.t00z.ocnf006.nc", 1⟩] ∧
    (∀ (T : Nat) (q : String) (files : List String) (r : BkgRec),
      r ∈ gen_bkg_states T q files → r.read_from_file = 1) := by
  constructor
  · decide
  · intro T q files r hr
    rcases mem_mkBkgRecs
        (show r ∈ mkBkgRecs q (T + 3600) (sortFiles files) from hr) with ⟨f, _, d2, rfl⟩
    rfl

/-- Witness for C8's universal part at a concrete input. -/
theorem bkg_scenario_20220328_witness :
    (⟨"1970-01-01T01:00:00Z", "./", "a.nc", 1⟩ : BkgRec) ∈ gen_bkg_states 0 "." ["a.foo"] ∧
    (⟨"1970-01-01T01:00:00Z", "./", "a.nc", 1⟩ : BkgRec).read_from_file = 1 :=
  ⟨by decide, bkg_scenario_20220328.2 0 "." ["a.foo"] _ (by decide)⟩

/-- C9: the generated bump-C documents do not depend on the `SOCA_VARS`
value: any two parsed variable lists give identical loop outputs, which are
configurations for exactly the hard-coded variables ssh, tocn, socn. -/
theorem bumpC_independent_of_soca_vars (anl : String) (s1 s2 : List String) :
    bumpCOutputs anl s1 = bumpCOutputs anl s2 ∧
    (bumpCOutputs anl s1).map (fun t => t.1) = ["ssh", "tocn", "socn"] :=
  ⟨rfl, rfl⟩

/-- C10: every metadata-repair command (both the overwrite and the delete
form) is executed twice per matched file — once via `os.system` and once
via `subprocess.run` — and the trace's execution events number exactly two
per issued command: two executions × two command forms × the five
variables × the two attributes × the file count. -/
theorem ncatted_commands_run_twice (files : List String) (v att f : String)
    (hv : v ∈ fixDiagVars) (ha : att ∈ fixDiagAtts) (hf : f ∈ files) :
    (ExecMethod.osSystem, ncattedChange att v f) ∈ repairTrace files ∧
    (ExecMethod.subprocessRun, ncattedChange att v f) ∈ repairTrace files ∧
    (ExecMethod.osSystem, ncattedDelete att v f) ∈ repairTrace files ∧
    (ExecMethod.subprocessRun, ncattedDelete att v f) ∈ repairTrace files ∧
    ((repairTrace files).filter (fun e => decide (e.1 ≠ ExecMethod.log))).length
      = 2 * (2 * (fixDiagVars.length * fixDiagAtts.length * files.length)) := by
  have hch := List.mem_map_of_mem (ncattedChange att v) hf
  have hd := List.mem_map_of_mem (ncattedDelete att v) hf
  refine ⟨?_, ?_, ?_, ?_, ?_⟩
  · exact mem_repairTrace_of_block hv ha
      (by rw [blockTrace_eq]; exact List.mem_append_left _ (mem_runJobs_osSystem hch))
  · exact mem_repairTrace_of_block hv ha
      (by rw [blockTrace_eq]; exact List.mem_append_left _ (mem_runJobs_subprocessRun hch))
  · exact mem_repairTrace_of_block hv ha
      (by rw [blockTrace_eq]; exact List.mem_append_right _ (mem_runJobs_osSystem hd))
  · exact mem_repairTrace_of_block hv ha
      (by rw [blockTrace_eq]; exact List.mem_append_right _ (mem_runJobs_subprocessRun hd))
  · rw [repairTrace_exec_length]
    simp [fixDiagVars, fixDiagAtts]
    ring

/-- Witness for C10 at a concrete input. -/
theorem ncatted_commands_run_twice_witness :
    "Salt" ∈ fixDiagVars ∧ "missing_value" ∈ fixDiagAtts ∧ "b.nc" ∈ ["b.nc"] ∧
    (ExecMethod.osSystem, ncattedChange "missing_value" "Salt" "b.nc")
      ∈ repairTrace ["b.nc"] :=
  ⟨by decide, by decide, by decide,
    (ncatted_commands_run_twice ["b.nc"] "Salt" "missing_value" "b.nc"
      (by decide) (by decide) (by decide)).1⟩
